import Mathlib

/-!
Shallow embedding of `src/graph.js`: a three.js scene with one root sphere,
two child spheres whose positions are derived from a single angle parameter,
cylinder edges rebuilt on every angle change, and camera projection
parameters (fov / near / far) adjusted by keyboard events with per-field
clamps.  JavaScript numbers are modelled as ideal reals (`ℝ`).
-/

open Real

noncomputable section

/-- 3D vector, modelling `THREE.Vector3`. -/
structure Vec3 where
  x : ℝ
  y : ℝ
  z : ℝ

/-- `Vector3.subVectors(a, b)` : componentwise `a - b`. -/
def vsub (a b : Vec3) : Vec3 := ⟨a.x - b.x, a.y - b.y, a.z - b.z⟩

/-- Componentwise vector addition. -/
def vadd (a b : Vec3) : Vec3 := ⟨a.x + b.x, a.y + b.y, a.z + b.z⟩

/-- Scalar multiple of a vector (`multiplyScalar` / `addScaledVector` building block). -/
def vsmul (c : ℝ) (a : Vec3) : Vec3 := ⟨c * a.x, c * a.y, c * a.z⟩

/-- `Vector3.length()` : Euclidean norm. -/
def vlen (a : Vec3) : ℝ := Real.sqrt (a.x ^ 2 + a.y ^ 2 + a.z ^ 2)

/-- `Vector3.cross` : cross product. -/
def vcross (a b : Vec3) : Vec3 :=
  ⟨a.y * b.z - a.z * b.y, a.z * b.x - a.x * b.z, a.x * b.y - a.y * b.x⟩

/-- `Vector3.normalize()` : divide by the length (a zero vector stays zero;
in Lean this is automatic since division by zero yields zero). -/
def vnormalize (a : Vec3) : Vec3 := vsmul (vlen a)⁻¹ a

/-- The world up vector `(0, 1, 0)` used by `Object3D.lookAt`. -/
def up3 : Vec3 := ⟨0, 1, 0⟩

/-- The origin. -/
def vzero : Vec3 := ⟨0, 0, 0⟩

/-- Modelled from the spec: `edge.lookAt(end)` ("orient-to-target") orients the
mesh's local `+Z` axis toward the target point, using the world up vector
`(0,1,0)`; the resulting rotation's columns (world images of the local basis)
are `z = normalize(target − position)`, `x = normalize(up × z)`, `y = z × x`.
The library function `THREE.Object3D.lookAt` itself is not part of this
repository's sources. -/
def lookAtFrame (position target : Vec3) : Vec3 × Vec3 × Vec3 :=
  let z := vnormalize (vsub target position)
  let x := vnormalize (vcross up3 z)
  let y := vcross z x
  (x, y, z)

/-- Rotation about the X axis by `θ` applied to a local vector. -/
def rotX (θ : ℝ) (v : Vec3) : Vec3 :=
  ⟨v.x, Real.cos θ * v.y - Real.sin θ * v.z, Real.sin θ * v.y + Real.cos θ * v.z⟩

/-- Apply a rotation given by its three columns to a local vector. -/
def applyFrame (f : Vec3 × Vec3 × Vec3) (v : Vec3) : Vec3 :=
  vadd (vsmul v.x f.1) (vadd (vsmul v.y f.2.1) (vsmul v.z f.2.2))

/-- `Object3D.rotateX(θ)` post-composes the object's rotation with a rotation
about the local X axis: each new column is the old frame applied to the
rotated local basis vector. -/
def rotateXFrame (θ : ℝ) (f : Vec3 × Vec3 × Vec3) : Vec3 × Vec3 × Vec3 :=
  (applyFrame f (rotX θ ⟨1, 0, 0⟩), applyFrame f (rotX θ ⟨0, 1, 0⟩),
    applyFrame f (rotX θ ⟨0, 0, 1⟩))

-- Configuration constants (lines 11–15 of `graph.js`).

def sphereRadius : ℝ := 0.5
def edgeRadius : ℝ := 0.05

/-- The geometric data of the cylinder mesh returned by `createEdge`:
cylinder radii and length, the mesh's world position, and the rotation
frame (world images of the local X/Y/Z axes) after `lookAt` + `rotateX(π/2)`.
The cylinder's long axis is its local Y axis, so its world direction is
`frameY`. -/
structure EdgeMesh where
  radiusTop : ℝ
  radiusBottom : ℝ
  length : ℝ
  position : Vec3
  frameX : Vec3
  frameY : Vec3
  frameZ : Vec3

/-- `createEdge(start, end)` (lines 31–44): direction = end − start,
length = ‖direction‖, a cylinder of that length and radius `edgeRadius`,
positioned at `start + 0.5·direction`, oriented by `lookAt(end)` followed by
`rotateX(π/2)`. -/
def createEdge (start endv : Vec3) : EdgeMesh :=
  let direction := vsub endv start
  let length := vlen direction
  let position := vadd start (vsmul 0.5 direction)
  let f := rotateXFrame (Real.pi / 2) (lookAtFrame position endv)
  { radiusTop := edgeRadius, radiusBottom := edgeRadius, length := length,
    position := position, frameX := f.1, frameY := f.2.1, frameZ := f.2.2 }

/-- Position of the first child sphere as computed in `updateChildPositions`
(line 111): `(sin(angle/2)·distance, −distance, −cos(angle/2)·distance)`
with `distance = 3`. -/
def childPos1 (angle : ℝ) : Vec3 :=
  let distance : ℝ := 3
  let halfAngle := angle / 2
  ⟨Real.sin halfAngle * distance, -distance, -(Real.cos halfAngle) * distance⟩

/-- Position of the second child sphere (line 112):
`(−sin(angle/2)·distance, −distance, −cos(angle/2)·distance)`. -/
def childPos2 (angle : ℝ) : Vec3 :=
  let distance : ℝ := 3
  let halfAngle := angle / 2
  ⟨-(Real.sin halfAngle) * distance, -distance, -(Real.cos halfAngle) * distance⟩

/-- An edge object held by the scene: a fresh identity (three.js object
identity, modelled by a numeric id), the endpoint pair it was built from, and
its cylinder mesh data. -/
structure EdgeObj where
  id : ℕ
  start : Vec3
  endp : Vec3
  mesh : EdgeMesh

/-- `scene.remove(e)` for the edge variables: removes the recorded object
(by identity) from the scene's edge children if present; removing an
`undefined` variable (before the first `updateChildPositions`) is a no-op. -/
def sceneRemove (l : List EdgeObj) : Option EdgeObj → List EdgeObj
  | none => l
  | some e => l.eraseP (fun x => x.id == e.id)

/-- Modelled from the spec: the camera's projection matrix, represented by
the parameter snapshot `(fov, near, far, aspect)` baked in at the last
`updateProjectionMatrix()` call; the matrix entries themselves are a library
concern (`THREE.PerspectiveCamera`). -/
structure Projection where
  fov : ℝ
  near : ℝ
  far : ℝ
  aspect : ℝ

/-- The `THREE.PerspectiveCamera`: its current parameter fields and the last
computed projection matrix. -/
structure Camera where
  fov : ℝ
  near : ℝ
  far : ℝ
  aspect : ℝ
  proj : Projection

/-- `camera.updateProjectionMatrix()` : recompute the projection matrix from
the camera's current fields. -/
def updateProjectionMatrix (c : Camera) : Camera :=
  { c with proj := ⟨c.fov, c.near, c.far, c.aspect⟩ }

/-- The module-level mutable state of `graph.js`: the angle parameter and the
camera-setting variables (`fov`, `near`, `far`), the camera object, the
frustum helper (`cameraHelper`, modelled by the projection snapshot it
depicts), the renderer size, the sphere positions, and the scene's edge
objects together with the `edge1` / `edge2` variables and a fresh-id
counter for newly constructed meshes. -/
structure World where
  angle : ℝ
  fov : ℝ
  near : ℝ
  far : ℝ
  camera : Camera
  helper : Projection
  width : ℝ
  height : ℝ
  mainPos : Vec3
  child1Pos : Vec3
  child2Pos : Vec3
  sceneEdges : List EdgeObj
  edge1 : Option EdgeObj
  edge2 : Option EdgeObj
  nextId : ℕ

/-- `updateChildPositions()` (lines 107–124): recompute the two child sphere
positions from the current angle, remove the old edges from the scene,
create two new edges from the main sphere to the children, add them to the
scene and record them as the current edges. -/
def updateChildPositions (st : World) : World :=
  let c1 := childPos1 st.angle
  let c2 := childPos2 st.angle
  let scene1 := sceneRemove (sceneRemove st.sceneEdges st.edge1) st.edge2
  let e1 : EdgeObj := ⟨st.nextId, st.mainPos, c1, createEdge st.mainPos c1⟩
  let e2 : EdgeObj := ⟨st.nextId + 1, st.mainPos, c2, createEdge st.mainPos c2⟩
  { st with child1Pos := c1, child2Pos := c2,
            sceneEdges := scene1 ++ [e1, e2],
            edge1 := some e1, edge2 := some e2,
            nextId := st.nextId + 2 }

/-- `updateCamera()` (lines 229–236): write the `fov` / `near` / `far`
variables onto the camera, recompute the projection matrix, and refresh the
frustum helper. -/
def updateCamera (st : World) : World :=
  let cam := updateProjectionMatrix
    { st.camera with fov := st.fov, near := st.near, far := st.far }
  { st with camera := cam, helper := cam.proj }

/-- `onWindowResize()` (lines 184–189): set the camera aspect ratio to
`width / height`, recompute the projection matrix, resize the renderer, and
refresh the frustum helper. -/
def onWindowResize (w h : ℝ) (st : World) : World :=
  let cam := updateProjectionMatrix { st.camera with aspect := w / h }
  { st with camera := cam, width := w, height := h, helper := cam.proj }

/-- `const step = Math.PI / 36` (line 192): the 5° angle increment. -/
def step : ℝ := Real.pi / 36

/-- `onKeyDown(event)` (lines 191–227): dispatch on `event.key`; arrow keys
move the angle by `π/36` with clamps at `0` and `π` and rebuild the child
geometry; the letter keys adjust one camera field with its clamp and refresh
the camera; unrecognized keys are no-ops. -/
def onKeyDown (key : String) (st : World) : World :=
  match key with
  | "ArrowLeft" =>
      updateChildPositions { st with angle := max 0 (st.angle - step) }
  | "ArrowRight" =>
      updateChildPositions { st with angle := min Real.pi (st.angle + step) }
  | "f" => updateCamera { st with fov := max 10 (st.fov - 5) }
  | "F" => updateCamera { st with fov := min 120 (st.fov + 5) }
  | "n" => updateCamera { st with near := max 0.1 (st.near - 0.1) }
  | "N" => updateCamera { st with near := min 10 (st.near + 0.1) }
  | "r" => updateCamera { st with far := max 10 (st.far - 5) }
  | "R" => updateCamera { st with far := min 100 (st.far + 5) }
  | _ => st

/-- An external trigger: a keyboard event carrying `event.key`, or a window
resize carrying the new viewport size. -/
inductive Event where
  | keydown (key : String)
  | resize (w h : ℝ)

/-- Dispatch one event to its listener. -/
def applyEvent (st : World) (e : Event) : World :=
  match e with
  | .keydown k => onKeyDown k st
  | .resize w h => onWindowResize w h st

/-- Apply a finite sequence of events in order. -/
def applyEvents (es : List Event) (st : World) : World :=
  es.foldl applyEvent st

/-- The state assembled by `main()` before the initial
`updateChildPositions()` call: initial `fov = 75`, `near = 0.1`, `far = 50`,
`angle = π/4`, camera aspect `width/height`, all spheres at the origin
(three.js meshes are created at the origin and the main sphere is never
moved), no edges yet (`edge1` / `edge2` still undefined). -/
def initBase (w h : ℝ) : World :=
  let cam : Camera :=
    { fov := 75, near := 0.1, far := 50, aspect := w / h,
      proj := ⟨75, 0.1, 50, w / h⟩ }
  { angle := Real.pi / 4, fov := 75, near := 0.1, far := 50,
    camera := cam, helper := cam.proj, width := w, height := h,
    mainPos := vzero, child1Pos := vzero, child2Pos := vzero,
    sceneEdges := [], edge1 := none, edge2 := none, nextId := 0 }

/-- The state after `main()` has run on a viewport of size `w × h`:
`main` ends its scene assembly by calling `updateChildPositions()`
(line 152). -/
def initWorld (w h : ℝ) : World :=
  updateChildPositions (initBase w h)

/-! ### Projection lemmas for the state-update functions -/

@[simp] lemma updateChildPositions_angle (s : World) :
    (updateChildPositions s).angle = s.angle := rfl

@[simp] lemma updateChildPositions_fov (s : World) :
    (updateChildPositions s).fov = s.fov := rfl

@[simp] lemma updateChildPositions_near (s : World) :
    (updateChildPositions s).near = s.near := rfl

@[simp] lemma updateChildPositions_far (s : World) :
    (updateChildPositions s).far = s.far := rfl

@[simp] lemma updateChildPositions_camera (s : World) :
    (updateChildPositions s).camera = s.camera := rfl

@[simp] lemma updateChildPositions_mainPos (s : World) :
    (updateChildPositions s).mainPos = s.mainPos := rfl

@[simp] lemma updateChildPositions_child1Pos (s : World) :
    (updateChildPositions s).child1Pos = childPos1 s.angle := rfl

@[simp] lemma updateChildPositions_child2Pos (s : World) :
    (updateChildPositions s).child2Pos = childPos2 s.angle := rfl

@[simp] lemma updateChildPositions_sceneEdges (s : World) :
    (updateChildPositions s).sceneEdges =
      sceneRemove (sceneRemove s.sceneEdges s.edge1) s.edge2 ++
        [⟨s.nextId, s.mainPos, childPos1 s.angle,
            createEdge s.mainPos (childPos1 s.angle)⟩,
         ⟨s.nextId + 1, s.mainPos, childPos2 s.angle,
            createEdge s.mainPos (childPos2 s.angle)⟩] := rfl

@[simp] lemma updateChildPositions_nextId (s : World) :
    (updateChildPositions s).nextId = s.nextId + 2 := rfl

@[simp] lemma updateCamera_angle (s : World) :
    (updateCamera s).angle = s.angle := rfl

@[simp] lemma updateCamera_fov (s : World) : (updateCamera s).fov = s.fov := rfl

@[simp] lemma updateCamera_near (s : World) :
    (updateCamera s).near = s.near := rfl

@[simp] lemma updateCamera_far (s : World) : (updateCamera s).far = s.far := rfl

@[simp] lemma updateCamera_camera_fov (s : World) :
    (updateCamera s).camera.fov = s.fov := rfl

@[simp] lemma updateCamera_camera_near (s : World) :
    (updateCamera s).camera.near = s.near := rfl

@[simp] lemma updateCamera_camera_far (s : World) :
    (updateCamera s).camera.far = s.far := rfl

@[simp] lemma updateCamera_mainPos (s : World) :
    (updateCamera s).mainPos = s.mainPos := rfl

@[simp] lemma updateCamera_child1Pos (s : World) :
    (updateCamera s).child1Pos = s.child1Pos := rfl

@[simp] lemma updateCamera_child2Pos (s : World) :
    (updateCamera s).child2Pos = s.child2Pos := rfl

@[simp] lemma updateCamera_sceneEdges (s : World) :
    (updateCamera s).sceneEdges = s.sceneEdges := rfl

@[simp] lemma updateCamera_edge1 (s : World) :
    (updateCamera s).edge1 = s.edge1 := rfl

@[simp] lemma updateCamera_edge2 (s : World) :
    (updateCamera s).edge2 = s.edge2 := rfl

@[simp] lemma updateCamera_nextId (s : World) :
    (updateCamera s).nextId = s.nextId := rfl

@[simp] lemma onWindowResize_angle (w h : ℝ) (s : World) :
    (onWindowResize w h s).angle = s.angle := rfl

@[simp] lemma onWindowResize_fov (w h : ℝ) (s : World) :
    (onWindowResize w h s).fov = s.fov := rfl

@[simp] lemma onWindowResize_near (w h : ℝ) (s : World) :
    (onWindowResize w h s).near = s.near := rfl

@[simp] lemma onWindowResize_far (w h : ℝ) (s : World) :
    (onWindowResize w h s).far = s.far := rfl

@[simp] lemma onWindowResize_camera_fov (w h : ℝ) (s : World) :
    (onWindowResize w h s).camera.fov = s.camera.fov := rfl

@[simp] lemma onWindowResize_camera_near (w h : ℝ) (s : World) :
    (onWindowResize w h s).camera.near = s.camera.near := rfl

@[simp] lemma onWindowResize_camera_far (w h : ℝ) (s : World) :
    (onWindowResize w h s).camera.far = s.camera.far := rfl

@[simp] lemma onWindowResize_mainPos (w h : ℝ) (s : World) :
    (onWindowResize w h s).mainPos = s.mainPos := rfl

@[simp] lemma onWindowResize_child1Pos (w h : ℝ) (s : World) :
    (onWindowResize w h s).child1Pos = s.child1Pos := rfl

@[simp] lemma onWindowResize_child2Pos (w h : ℝ) (s : World) :
    (onWindowResize w h s).child2Pos = s.child2Pos := rfl

@[simp] lemma onWindowResize_sceneEdges (w h : ℝ) (s : World) :
    (onWindowResize w h s).sceneEdges = s.sceneEdges := rfl

@[simp] lemma onWindowResize_edge1 (w h : ℝ) (s : World) :
    (onWindowResize w h s).edge1 = s.edge1 := rfl

@[simp] lemma onWindowResize_edge2 (w h : ℝ) (s : World) :
    (onWindowResize w h s).edge2 = s.edge2 := rfl

@[simp] lemma onWindowResize_nextId (w h : ℝ) (s : World) :
    (onWindowResize w h s).nextId = s.nextId := rfl

@[simp] lemma applyEvents_nil (s : World) : applyEvents [] s = s := rfl

@[simp] lemma applyEvents_cons (e : Event) (es : List Event) (s : World) :
    applyEvents (e :: es) s = applyEvents es (applyEvent s e) := rfl

lemma step_pos : 0 < step := by
  have := Real.pi_pos
  unfold step; linarith

/-! ### The angle invariant -/

lemma angle_onKeyDown_arrowRight (s : World) :
    (onKeyDown "ArrowRight" s).angle = min Real.pi (s.angle + Real.pi / 36) :=
  rfl

lemma angle_onKeyDown_arrowLeft (s : World) :
    (onKeyDown "ArrowLeft" s).angle = max 0 (s.angle - Real.pi / 36) := rfl

lemma angle_bounds_applyEvent (e : Event) (s : World) (h0 : 0 ≤ s.angle)
    (h1 : s.angle ≤ Real.pi) :
    0 ≤ (applyEvent s e).angle ∧ (applyEvent s e).angle ≤ Real.pi := by
  have hs := step_pos
  cases e with
  | keydown k =>
    show 0 ≤ (onKeyDown k s).angle ∧ (onKeyDown k s).angle ≤ Real.pi
    unfold onKeyDown
    split
    · constructor
      · simp [le_max_iff]
      · simp only [updateChildPositions_angle]
        exact max_le Real.pi_nonneg (by linarith)
    · constructor
      · simp only [updateChildPositions_angle]
        exact le_min Real.pi_nonneg (by linarith)
      · simp [min_le_iff]
    all_goals simp [h0, h1]
  | resize w h => simpa using ⟨h0, h1⟩

lemma angle_bounds_applyEvents (es : List Event) :
    ∀ s : World, 0 ≤ s.angle → s.angle ≤ Real.pi →
      0 ≤ (applyEvents es s).angle ∧ (applyEvents es s).angle ≤ Real.pi := by
  induction es with
  | nil => intro s h0 h1; simpa using ⟨h0, h1⟩
  | cons e es ih =>
    intro s h0 h1
    have h := angle_bounds_applyEvent e s h0 h1
    simpa using ih (applyEvent s e) h.1 h.2

@[simp] lemma initWorld_angle (w h : ℝ) : (initWorld w h).angle = Real.pi / 4 :=
  rfl

@[simp] lemma initWorld_fov (w h : ℝ) : (initWorld w h).fov = 75 := rfl

@[simp] lemma initWorld_near (w h : ℝ) : (initWorld w h).near = 0.1 := rfl

@[simp] lemma initWorld_far (w h : ℝ) : (initWorld w h).far = 50 := rfl

@[simp] lemma initWorld_camera_near (w h : ℝ) :
    (initWorld w h).camera.near = 0.1 := rfl

@[simp] lemma initWorld_camera_far (w h : ℝ) :
    (initWorld w h).camera.far = 50 := rfl

@[simp] lemma initWorld_mainPos (w h : ℝ) : (initWorld w h).mainPos = vzero :=
  rfl

/-! ### Numeric bounds on the square roots used at the initial angle -/

lemma sqrt2_lb : (1.4142 : ℝ) < Real.sqrt 2 := by
  rw [show (2:ℝ) = Real.sqrt 2 ^ 2 from (Real.sq_sqrt (by norm_num)).symm] at *
  rw [Real.lt_sqrt (by norm_num)] at *
  nlinarith [Real.sq_sqrt (show (0:ℝ) ≤ 2 by norm_num)]

lemma sqrt2_ub : Real.sqrt 2 < (1.41422 : ℝ) := by
  rw [Real.sqrt_lt' (by norm_num)]
  norm_num

/-! ### Claims C2, C3, C7, C8, C9 -/

/-- Claim C2: for every angle in `[0, π]` with the fixed distance `3`, the
layout computation yields `child1 = (sin(angle/2)·3, −3, −cos(angle/2)·3)`
and `child2 = (−sin(angle/2)·3, −3, −cos(angle/2)·3)`; the two points are
mirror images under negation of the `x` coordinate and share the `y` and `z`
coordinates; at `angle = π/4` the positions are `(±1.148, −3, −2.772)` up to
`0.001`. -/
theorem C2_layout_symmetric (a : ℝ) (h0 : 0 ≤ a) (h1 : a ≤ Real.pi) :
    childPos1 a = ⟨Real.sin (a / 2) * 3, -3, -(Real.cos (a / 2)) * 3⟩ ∧
    (childPos2 a).x = -(childPos1 a).x ∧
    (childPos2 a).y = (childPos1 a).y ∧
    (childPos2 a).z = (childPos1 a).z ∧
    |(childPos1 (Real.pi / 4)).x - 1.148| < 0.001 ∧
    (childPos1 (Real.pi / 4)).y = -3 ∧
    |(childPos1 (Real.pi / 4)).z - (-2.772)| < 0.001 ∧
    (childPos2 (Real.pi / 4)).x = -(childPos1 (Real.pi / 4)).x ∧
    (childPos2 (Real.pi / 4)).y = -3 ∧
    (childPos2 (Real.pi / 4)).z = (childPos1 (Real.pi / 4)).z := by
  have hs2l := sqrt2_lb
  have hs2u := sqrt2_ub
  have h8 : Real.pi / 4 / 2 = Real.pi / 8 := by ring
  have hsin : Real.sin (Real.pi / 4 / 2) = Real.sqrt (2 - Real.sqrt 2) / 2 := by
    rw [h8, Real.sin_pi_div_eight]
  have hcos : Real.cos (Real.pi / 4 / 2) = Real.sqrt (2 + Real.sqrt 2) / 2 := by
    rw [h8, Real.cos_pi_div_eight]
  have hql : (0.7647 : ℝ) < Real.sqrt (2 - Real.sqrt 2) := by
    rw [Real.lt_sqrt (by norm_num)]
    nlinarith
  have hqu : Real.sqrt (2 - Real.sqrt 2) < (0.7655 : ℝ) := by
    rw [Real.sqrt_lt' (by norm_num)]
    nlinarith
  have hpl : (1.8474 : ℝ) < Real.sqrt (2 + Real.sqrt 2) := by
    rw [Real.lt_sqrt (by norm_num)]
    nlinarith
  have hpu : Real.sqrt (2 + Real.sqrt 2) < (1.8482 : ℝ) := by
    rw [Real.sqrt_lt' (by norm_num)]
    nlinarith
  refine ⟨rfl, ?_, rfl, rfl, ?_, rfl, ?_, ?_, rfl, rfl⟩
  · show -(Real.sin (a / 2)) * 3 = -(Real.sin (a / 2) * 3)
    ring
  · show |Real.sin (Real.pi / 4 / 2) * 3 - 1.148| < 0.001
    rw [hsin, abs_lt]
    constructor <;> nlinarith
  · show |-(Real.cos (Real.pi / 4 / 2)) * 3 - (-2.772)| < 0.001
    rw [hcos, abs_lt]
    constructor <;> nlinarith
  · show -(Real.sin (Real.pi / 4 / 2)) * 3 = -(Real.sin (Real.pi / 4 / 2) * 3)
    ring

/-- Witness for C2 at the concrete angle `π/4`. -/
theorem C2_layout_symmetric_witness :
    (0 ≤ Real.pi / 4 ∧ Real.pi / 4 ≤ Real.pi) ∧
    (childPos1 (Real.pi / 4) =
        ⟨Real.sin (Real.pi / 4 / 2) * 3, -3,
          -(Real.cos (Real.pi / 4 / 2)) * 3⟩ ∧
      (childPos2 (Real.pi / 4)).x = -(childPos1 (Real.pi / 4)).x ∧
      (childPos2 (Real.pi / 4)).y = (childPos1 (Real.pi / 4)).y ∧
      (childPos2 (Real.pi / 4)).z = (childPos1 (Real.pi / 4)).z ∧
      |(childPos1 (Real.pi / 4)).x - 1.148| < 0.001 ∧
      (childPos1 (Real.pi / 4)).y = -3 ∧
      |(childPos1 (Real.pi / 4)).z - (-2.772)| < 0.001 ∧
      (childPos2 (Real.pi / 4)).x = -(childPos1 (Real.pi / 4)).x ∧
      (childPos2 (Real.pi / 4)).y = -3 ∧
      (childPos2 (Real.pi / 4)).z = (childPos1 (Real.pi / 4)).z) :=
  ⟨⟨by positivity, by linarith [Real.pi_pos]⟩,
    C2_layout_symmetric (Real.pi / 4) (by positivity)
      (by linarith [Real.pi_pos])⟩

/-- Claim C3: an ArrowRight event sets the angle to `min(π, angle + π/36)`
and ArrowLeft sets it to `max(0, angle − π/36)` in every state; and starting
from any state with angle in `[0, π]`, every finite event sequence keeps the
angle in `[0, π]` — the interval is an invariant of the step relation. -/
theorem C3_angle_interval_invariant (s : World) (h0 : 0 ≤ s.angle)
    (h1 : s.angle ≤ Real.pi) :
    (∀ t : World, (applyEvent t (Event.keydown "ArrowRight")).angle =
        min Real.pi (t.angle + Real.pi / 36)) ∧
    (∀ t : World, (applyEvent t (Event.keydown "ArrowLeft")).angle =
        max 0 (t.angle - Real.pi / 36)) ∧
    ∀ es : List Event,
      0 ≤ (applyEvents es s).angle ∧ (applyEvents es s).angle ≤ Real.pi :=
  ⟨fun t => angle_onKeyDown_arrowRight t,
    fun t => angle_onKeyDown_arrowLeft t,
    fun es => angle_bounds_applyEvents es s h0 h1⟩

/-- Witness for C3 at the initial state on an 800×600 viewport. -/
theorem C3_angle_interval_invariant_witness :
    (0 ≤ (initWorld 800 600).angle ∧ (initWorld 800 600).angle ≤ Real.pi) ∧
    (0 ≤ (applyEvents [Event.keydown "ArrowRight"] (initWorld 800 600)).angle ∧
      (applyEvents [Event.keydown "ArrowRight"] (initWorld 800 600)).angle ≤
        Real.pi) := by
  have h0 : 0 ≤ (initWorld 800 600).angle := by
    rw [initWorld_angle]; positivity
  have h1 : (initWorld 800 600).angle ≤ Real.pi := by
    rw [initWorld_angle]; linarith [Real.pi_pos]
  exact ⟨⟨h0, h1⟩,
    (C3_angle_interval_invariant (initWorld 800 600) h0 h1).2.2
      [Event.keydown "ArrowRight"]⟩

lemma angle_replicate_arrowRight (n : ℕ) :
    ∀ s : World, s.angle + n * (Real.pi / 36) ≤ Real.pi →
      (applyEvents (List.replicate n (Event.keydown "ArrowRight")) s).angle =
        s.angle + n * (Real.pi / 36) := by
  induction n with
  | zero => intro s _; simp
  | succ n ih =>
    intro s hs
    push_cast at hs
    have hn : (0:ℝ) ≤ (n : ℝ) * (Real.pi / 36) := by positivity
    have hexp : ((n : ℝ) + 1) * (Real.pi / 36) =
        (n : ℝ) * (Real.pi / 36) + Real.pi / 36 := by ring
    rw [hexp] at hs
    have h1 : (applyEvent s (Event.keydown "ArrowRight")).angle =
        s.angle + Real.pi / 36 := by
      show (onKeyDown "ArrowRight" s).angle = _
      rw [angle_onKeyDown_arrowRight]
      apply min_eq_right
      linarith
    rw [List.replicate_succ, applyEvents_cons,
      ih (applyEvent s (Event.keydown "ArrowRight")) (by rw [h1]; linarith),
      h1]
    push_cast
    ring

/-- Claim C7: from the initial angle `π/4` with step `π/36`, nine
consecutive ArrowRight events yield angle `π/2`, and a tenth yields
`19π/36` (95°), still at most `π`. -/
theorem C7_nine_then_ten_rights (w h : ℝ) :
    (applyEvents (List.replicate 9 (Event.keydown "ArrowRight"))
        (initWorld w h)).angle = Real.pi / 2 ∧
    (applyEvents (List.replicate 10 (Event.keydown "ArrowRight"))
        (initWorld w h)).angle = 19 * Real.pi / 36 ∧
    19 * Real.pi / 36 ≤ Real.pi := by
  have hπ := Real.pi_pos
  have e9 := angle_replicate_arrowRight 9 (initWorld w h)
    (by rw [initWorld_angle]; push_cast; linarith)
  have e10 := angle_replicate_arrowRight 10 (initWorld w h)
    (by rw [initWorld_angle]; push_cast; linarith)
  refine ⟨?_, ?_, by linarith⟩
  · rw [e9, initWorld_angle]; push_cast; ring
  · rw [e10, initWorld_angle]; push_cast; ring

/-- Claim C8: with `fieldOfView` at its lower bound 10, an `'f'` key event
(decrease by 5, clamped below at 10) leaves both the `fov` variable and the
camera's field of view equal to 10: the write saturates at the bound. -/
theorem C8_fov_saturates_at_lower_bound (s : World) (hs : s.fov = 10) :
    (onKeyDown "f" s).fov = 10 ∧ (onKeyDown "f" s).camera.fov = 10 := by
  have h1 : (onKeyDown "f" s).fov = max 10 (s.fov - 5) := rfl
  have h2 : (onKeyDown "f" s).camera.fov = max 10 (s.fov - 5) := rfl
  rw [h1, h2, hs]
  norm_num

/-- Witness for C8 at the initial state with `fov` set to 10. -/
theorem C8_fov_saturates_witness :
    ({ initWorld 800 600 with fov := 10 } : World).fov = 10 ∧
    ((onKeyDown "f" { initWorld 800 600 with fov := 10 }).fov = 10 ∧
      (onKeyDown "f" { initWorld 800 600 with fov := 10 }).camera.fov = 10) :=
  ⟨rfl, C8_fov_saturates_at_lower_bound _ rfl⟩

/-- Claim C9: a window-resize event to `w × h` updates only the camera
aspect ratio (to `w / h`), the projection matrix, the renderer size and the
frustum helper; the `fov` / `near` / `far` variables, the camera's own
fov/near/far, the angle parameter, the child positions and the scene's edges
are all unchanged. -/
theorem C9_resize_only_touches_aspect (s : World) (w h : ℝ) :
    (applyEvent s (Event.resize w h)).camera.aspect = w / h ∧
    (applyEvent s (Event.resize w h)).camera.proj =
      ⟨s.camera.fov, s.camera.near, s.camera.far, w / h⟩ ∧
    (applyEvent s (Event.resize w h)).helper =
      (applyEvent s (Event.resize w h)).camera.proj ∧
    (applyEvent s (Event.resize w h)).width = w ∧
    (applyEvent s (Event.resize w h)).height = h ∧
    (applyEvent s (Event.resize w h)).fov = s.fov ∧
    (applyEvent s (Event.resize w h)).near = s.near ∧
    (applyEvent s (Event.resize w h)).far = s.far ∧
    (applyEvent s (Event.resize w h)).camera.fov = s.camera.fov ∧
    (applyEvent s (Event.resize w h)).camera.near = s.camera.near ∧
    (applyEvent s (Event.resize w h)).camera.far = s.camera.far ∧
    (applyEvent s (Event.resize w h)).angle = s.angle ∧
    (applyEvent s (Event.resize w h)).child1Pos = s.child1Pos ∧
    (applyEvent s (Event.resize w h)).child2Pos = s.child2Pos ∧
    (applyEvent s (Event.resize w h)).sceneEdges = s.sceneEdges ∧
    (applyEvent s (Event.resize w h)).edge1 = s.edge1 ∧
    (applyEvent s (Event.resize w h)).edge2 = s.edge2 :=
  ⟨rfl, rfl, rfl, rfl, rfl, rfl, rfl, rfl, rfl, rfl, rfl, rfl, rfl, rfl, rfl,
    rfl, rfl⟩

/-! ### The near/far clamp invariant -/

/-- The clamp ranges confine `near` below 10 and `far` above 10, for both the
module variables and the camera fields. -/
def nfInv (s : World) : Prop :=
  s.near ≤ 10 ∧ 10 ≤ s.far ∧ s.camera.near ≤ 10 ∧ 10 ≤ s.camera.far

lemma nfInv_applyEvent (e : Event) (s : World) (h : nfInv s) :
    nfInv (applyEvent s e) := by
  obtain ⟨h1, h2, h3, h4⟩ := h
  cases e with
  | keydown k =>
    show nfInv (onKeyDown k s)
    unfold onKeyDown
    split
    · exact ⟨h1, h2, h3, h4⟩
    · exact ⟨h1, h2, h3, h4⟩
    · exact ⟨h1, h2, h1, h2⟩
    · exact ⟨h1, h2, h1, h2⟩
    · exact ⟨max_le (by norm_num) (by linarith), h2,
        max_le (by norm_num) (by linarith), h2⟩
    · exact ⟨min_le_left 10 _, h2, min_le_left 10 _, h2⟩
    · exact ⟨h1, le_max_left 10 _, h1, le_max_left 10 _⟩
    · exact ⟨h1, le_min (by norm_num) (by linarith),
        h1, le_min (by norm_num) (by linarith)⟩
    · exact ⟨h1, h2, h3, h4⟩
  | resize w h => exact ⟨h1, h2, h3, h4⟩

lemma nfInv_applyEvents (es : List Event) :
    ∀ s : World, nfInv s → nfInv (applyEvents es s) := by
  induction es with
  | nil => intro s h; simpa using h
  | cons e es ih =>
    intro s h
    simpa using ih (applyEvent s e) (nfInv_applyEvent e s h)

lemma nfInv_init (w h : ℝ) : nfInv (initWorld w h) := by
  refine ⟨?_, ?_, ?_, ?_⟩
  · rw [initWorld_near]; norm_num
  · rw [initWorld_far]; norm_num
  · rw [initWorld_camera_near]; norm_num
  · rw [initWorld_camera_far]; norm_num

/-! ### Claims C1 and C6 -/

/-- Claim C1 as stated is false: no sequence of events, on any viewport,
reaches a state with `near > far`, because the per-field clamps keep
`near ≤ 10` and `10 ≤ far` from the initial `near = 0.1`, `far = 50`. -/
theorem C1_near_gt_far_unreachable :
    ¬ ∃ (w h : ℝ) (es : List Event),
        (applyEvents es (initWorld w h)).near >
          (applyEvents es (initWorld w h)).far := by
  rintro ⟨w, h, es, hlt⟩
  obtain ⟨hn, hf, -, -⟩ := nfInv_applyEvents es (initWorld w h) (nfInv_init w h)
  linarith

/-- Claim C1 amended: from the initial state (`near = 0.1`, `far = 50`),
every event sequence keeps `near ≤ 10 ≤ far`, so `near ≤ far` IS an
invariant of the key-event step relation and a configuration with
`near > far` is unreachable. -/
theorem C1_amended_near_le_far_invariant (w h : ℝ) (es : List Event) :
    (applyEvents es (initWorld w h)).near ≤ 10 ∧
    10 ≤ (applyEvents es (initWorld w h)).far ∧
    (applyEvents es (initWorld w h)).near ≤
      (applyEvents es (initWorld w h)).far := by
  obtain ⟨hn, hf, -, -⟩ := nfInv_applyEvents es (initWorld w h) (nfInv_init w h)
  exact ⟨hn, hf, by linarith⟩

/-- Claim C6 as stated is false at `a = π`: the hypothesis (both `a − π/36`
and `a` lie in `[0, π]`) holds there, yet ArrowRight followed by ArrowLeft
("vice versa") lands at `π − π/36 ≠ π`, because the ArrowRight clamp
saturates at `π` first. -/
theorem C6_round_trip_fails_at_pi :
    (0 ≤ Real.pi - Real.pi / 36 ∧ Real.pi - Real.pi / 36 ≤ Real.pi ∧
      0 ≤ Real.pi ∧ Real.pi ≤ Real.pi) ∧
    (onKeyDown "ArrowLeft" (onKeyDown "ArrowRight"
        { initWorld 800 600 with angle := Real.pi })).angle ≠ Real.pi := by
  have hπ := Real.pi_pos
  refine ⟨⟨by linarith, by linarith, by linarith, le_refl _⟩, ?_⟩
  rw [angle_onKeyDown_arrowLeft, angle_onKeyDown_arrowRight]
  have hang : ({ initWorld 800 600 with angle := Real.pi } : World).angle =
      Real.pi := rfl
  rw [hang, min_eq_left (by linarith), max_eq_right (by linarith)]
  intro hEq
  linarith

/-- Claim C6 amended: ArrowLeft followed by ArrowRight returns the angle
exactly to its original value whenever `0 ≤ angle − π/36` and `angle ≤ π`
(the claim's own guard); the reverse order ArrowRight followed by ArrowLeft
round-trips under the symmetric guard `0 ≤ angle` and `angle + π/36 ≤ π`,
which the claim's guard does not imply. -/
theorem C6_amended_round_trip (s : World)
    (h0 : 0 ≤ s.angle - Real.pi / 36) (h1 : s.angle ≤ Real.pi) :
    (onKeyDown "ArrowRight" (onKeyDown "ArrowLeft" s)).angle = s.angle ∧
    ∀ t : World, 0 ≤ t.angle → t.angle + Real.pi / 36 ≤ Real.pi →
      (onKeyDown "ArrowLeft" (onKeyDown "ArrowRight" t)).angle = t.angle := by
  constructor
  · rw [angle_onKeyDown_arrowRight, angle_onKeyDown_arrowLeft,
      max_eq_right h0]
    have hsum : s.angle - Real.pi / 36 + Real.pi / 36 = s.angle := by ring
    rw [hsum, min_eq_right h1]
  · intro t ht0 ht1
    rw [angle_onKeyDown_arrowLeft, angle_onKeyDown_arrowRight,
      min_eq_right (by linarith)]
    have hsum : t.angle + Real.pi / 36 - Real.pi / 36 = t.angle := by ring
    rw [hsum, max_eq_right ht0]

/-- Witness for the amended C6 at the initial angle `π/4`. -/
theorem C6_amended_round_trip_witness :
    (0 ≤ (initWorld 800 600).angle - Real.pi / 36 ∧
      (initWorld 800 600).angle ≤ Real.pi) ∧
    (onKeyDown "ArrowRight" (onKeyDown "ArrowLeft" (initWorld 800 600))).angle
      = (initWorld 800 600).angle ∧
    (0 ≤ (initWorld 800 600).angle ∧
      (initWorld 800 600).angle + Real.pi / 36 ≤ Real.pi) ∧
    (onKeyDown "ArrowLeft" (onKeyDown "ArrowRight" (initWorld 800 600))).angle
      = (initWorld 800 600).angle := by
  have hπ := Real.pi_pos
  have h0 : 0 ≤ (initWorld 800 600).angle - Real.pi / 36 := by
    rw [initWorld_angle]; linarith
  have h1 : (initWorld 800 600).angle ≤ Real.pi := by
    rw [initWorld_angle]; linarith
  have h2 : 0 ≤ (initWorld 800 600).angle := by
    rw [initWorld_angle]; linarith
  have h3 : (initWorld 800 600).angle + Real.pi / 36 ≤ Real.pi := by
    rw [initWorld_angle]; linarith
  have H := C6_amended_round_trip (initWorld 800 600) h0 h1
  exact ⟨⟨h0, h1⟩, H.1, ⟨h2, h3⟩, H.2 (initWorld 800 600) h2 h3⟩

@[simp] lemma updateChildPositions_edge1 (s : World) :
    (updateChildPositions s).edge1 =
      some ⟨s.nextId, s.mainPos, childPos1 s.angle,
        createEdge s.mainPos (childPos1 s.angle)⟩ := rfl

@[simp] lemma updateChildPositions_edge2 (s : World) :
    (updateChildPositions s).edge2 =
      some ⟨s.nextId + 1, s.mainPos, childPos2 s.angle,
        createEdge s.mainPos (childPos2 s.angle)⟩ := rfl

/-! ### Scene well-formedness: the scene holds exactly the two current edges -/

/-- The scene's edge children are exactly the two recorded current edges,
which are distinct objects with identities below the fresh-id counter. -/
def wellFormedEdges (s : World) : Prop :=
  ∃ e1 e2 : EdgeObj, s.edge1 = some e1 ∧ s.edge2 = some e2 ∧
    s.sceneEdges.map (fun x => x.id) = [e1.id, e2.id] ∧ e1.id ≠ e2.id ∧
    e1.id < s.nextId ∧ e2.id < s.nextId

lemma map_id_pair {l : List EdgeObj} {a b : ℕ}
    (h : l.map (fun x => x.id) = [a, b]) :
    ∃ y1 y2 : EdgeObj, l = [y1, y2] ∧ y1.id = a ∧ y2.id = b := by
  cases l with
  | nil => simp at h
  | cons y t =>
    cases t with
    | nil => simp at h
    | cons z u =>
      cases u with
      | nil =>
        simp only [List.map_cons, List.map_nil, List.cons.injEq,
          and_true] at h
        exact ⟨y, z, rfl, h.1, h.2⟩
      | cons v r => simp at h

lemma updateChildPositions_wf (s : World) (h : wellFormedEdges s) :
    (updateChildPositions s).sceneEdges.map (fun x => x.id) =
      [s.nextId, s.nextId + 1] ∧
    wellFormedEdges (updateChildPositions s) := by
  obtain ⟨e1, e2, he1, he2, hmap, hne, hb1, hb2⟩ := h
  obtain ⟨y1, y2, hl, hy1, hy2⟩ := map_id_pair hmap
  have hrm : sceneRemove (sceneRemove s.sceneEdges s.edge1) s.edge2 = [] := by
    rw [he1, he2, hl]
    simp [sceneRemove, hy1, hy2]
  have hscene := updateChildPositions_sceneEdges s
  rw [hrm] at hscene
  constructor
  · rw [hscene]; rfl
  · refine ⟨_, _, updateChildPositions_edge1 s, updateChildPositions_edge2 s,
      ?_, ?_, ?_, ?_⟩
    · rw [hscene]; rfl
    · show s.nextId ≠ s.nextId + 1
      omega
    · show s.nextId < s.nextId + 2
      omega
    · show s.nextId + 1 < s.nextId + 2
      omega

/-- Claim C4: from any state whose scene holds exactly the two recorded
current edges, running the edge rebuild twice leaves exactly two edge
objects in the scene — each run removes both recorded edges before adding
its two fresh ones, so no duplicates or stale edges accumulate. -/
theorem C4_rebuild_leaves_two_edges (s : World) (h : wellFormedEdges s) :
    (updateChildPositions (updateChildPositions s)).sceneEdges.length = 2 ∧
    wellFormedEdges (updateChildPositions (updateChildPositions s)) := by
  obtain ⟨h1, hwf1⟩ := updateChildPositions_wf s h
  obtain ⟨h2, hwf2⟩ := updateChildPositions_wf _ hwf1
  refine ⟨?_, hwf2⟩
  have := congrArg List.length h2
  simpa using this

/-- Witness for C4 at the post-`main()` initial state. -/
theorem C4_rebuild_leaves_two_edges_witness :
    wellFormedEdges (initWorld 800 600) ∧
    ((updateChildPositions
        (updateChildPositions (initWorld 800 600))).sceneEdges.length = 2 ∧
      wellFormedEdges
        (updateChildPositions (updateChildPositions (initWorld 800 600)))) := by
  have hwf : wellFormedEdges (initWorld 800 600) :=
    ⟨⟨0, vzero, childPos1 (Real.pi / 4),
        createEdge vzero (childPos1 (Real.pi / 4))⟩,
      ⟨1, vzero, childPos2 (Real.pi / 4),
        createEdge vzero (childPos2 (Real.pi / 4))⟩,
      rfl, rfl, rfl, by show (0:ℕ) ≠ 1; omega, by show 0 < 2; omega,
      by show 1 < 2; omega⟩
  exact ⟨hwf, C4_rebuild_leaves_two_edges (initWorld 800 600) hwf⟩

/-! ### Edge endpoints are never coincident -/

lemma vlen_childPos1 (a : ℝ) :
    vlen (vsub (childPos1 a) vzero) = 3 * Real.sqrt 2 := by
  show Real.sqrt ((Real.sin (a / 2) * 3 - 0) ^ 2 + ((-3 : ℝ) - 0) ^ 2 +
      (-(Real.cos (a / 2)) * 3 - 0) ^ 2) = 3 * Real.sqrt 2
  have key : (Real.sin (a / 2) * 3 - 0) ^ 2 + ((-3 : ℝ) - 0) ^ 2 +
      (-(Real.cos (a / 2)) * 3 - 0) ^ 2 = 18 := by
    nlinarith [Real.sin_sq_add_cos_sq (a / 2)]
  rw [key, show (18 : ℝ) = 3 ^ 2 * 2 by norm_num,
    Real.sqrt_mul (by norm_num) 2, Real.sqrt_sq (by norm_num)]

lemma vlen_childPos2 (a : ℝ) :
    vlen (vsub (childPos2 a) vzero) = 3 * Real.sqrt 2 := by
  show Real.sqrt ((-(Real.sin (a / 2)) * 3 - 0) ^ 2 + ((-3 : ℝ) - 0) ^ 2 +
      (-(Real.cos (a / 2)) * 3 - 0) ^ 2) = 3 * Real.sqrt 2
  have key : (-(Real.sin (a / 2)) * 3 - 0) ^ 2 + ((-3 : ℝ) - 0) ^ 2 +
      (-(Real.cos (a / 2)) * 3 - 0) ^ 2 = 18 := by
    nlinarith [Real.sin_sq_add_cos_sq (a / 2)]
  rw [key, show (18 : ℝ) = 3 ^ 2 * 2 by norm_num,
    Real.sqrt_mul (by norm_num) 2, Real.sqrt_sq (by norm_num)]

/-- Geometric invariant: the root sphere stays at the origin and every edge
in the scene starts at the origin and spans length `3·√2`. -/
def edgesGeomInv (s : World) : Prop :=
  s.mainPos = vzero ∧
  ∀ e ∈ s.sceneEdges,
    e.start = vzero ∧ vlen (vsub e.endp e.start) = 3 * Real.sqrt 2

lemma mem_of_mem_sceneRemove {e : EdgeObj} {l : List EdgeObj}
    {o : Option EdgeObj} (h : e ∈ sceneRemove l o) : e ∈ l := by
  cases o with
  | none => exact h
  | some x => exact List.mem_of_mem_eraseP h

lemma edgesGeomInv_upd (s : World) (h : edgesGeomInv s) :
    edgesGeomInv (updateChildPositions s) := by
  obtain ⟨hmain, hedges⟩ := h
  refine ⟨hmain, ?_⟩
  intro e he
  rw [updateChildPositions_sceneEdges] at he
  rcases List.mem_append.mp he with hin | hnew
  · exact hedges e (mem_of_mem_sceneRemove (mem_of_mem_sceneRemove hin))
  · rcases List.mem_cons.mp hnew with h1 | h2
    · subst h1
      exact ⟨hmain, by rw [hmain]; exact vlen_childPos1 s.angle⟩
    · rcases List.mem_cons.mp h2 with h3 | h4
      · subst h3
        exact ⟨hmain, by rw [hmain]; exact vlen_childPos2 s.angle⟩
      · exact absurd h4 (List.not_mem_nil e)

lemma edgesGeomInv_applyEvent (e : Event) (s : World) (h : edgesGeomInv s) :
    edgesGeomInv (applyEvent s e) := by
  cases e with
  | keydown k =>
    show edgesGeomInv (onKeyDown k s)
    unfold onKeyDown
    split
    · exact edgesGeomInv_upd _ h
    · exact edgesGeomInv_upd _ h
    all_goals exact h
  | resize w hh => exact h

lemma edgesGeomInv_applyEvents (es : List Event) :
    ∀ s : World, edgesGeomInv s → edgesGeomInv (applyEvents es s) := by
  induction es with
  | nil => intro s h; simpa using h
  | cons e es ih =>
    intro s h
    simpa using ih (applyEvent s e) (edgesGeomInv_applyEvent e s h)

lemma edgesGeomInv_init (w h : ℝ) : edgesGeomInv (initWorld w h) := by
  apply edgesGeomInv_upd
  exact ⟨rfl, fun e he => absurd he (List.not_mem_nil e)⟩

/-- Claim C10: through the program's own call sites the edge builder never
receives coincident endpoints — in every reachable state the root sphere is
at the origin and every scene edge starts there and has length `3·√2 > 0`,
so its endpoints are distinct for every angle; at angle `0` the two children
coincide with each other but not with the root. -/
theorem C10_edge_endpoints_never_coincident (w h : ℝ) (es : List Event)
    (e : EdgeObj) (he : e ∈ (applyEvents es (initWorld w h)).sceneEdges) :
    (applyEvents es (initWorld w h)).mainPos = vzero ∧
    e.start = vzero ∧
    vlen (vsub e.endp e.start) = 3 * Real.sqrt 2 ∧
    e.endp ≠ e.start ∧
    childPos1 0 = childPos2 0 ∧
    childPos1 0 ≠ vzero := by
  obtain ⟨hmain, hedges⟩ := edgesGeomInv_applyEvents es (initWorld w h)
    (edgesGeomInv_init w h)
  obtain ⟨hstart, hlen⟩ := hedges e he
  have hpos : (0 : ℝ) < 3 * Real.sqrt 2 := by
    have : (0 : ℝ) < Real.sqrt 2 := Real.sqrt_pos.mpr (by norm_num)
    linarith
  refine ⟨hmain, hstart, hlen, ?_, ?_, ?_⟩
  · intro heq
    rw [heq] at hlen
    have hz : vsub e.start e.start = ⟨0, 0, 0⟩ := by
      simp [vsub]
    rw [hz] at hlen
    have h0 : vlen ⟨0, 0, 0⟩ = 0 := by
      show Real.sqrt ((0 : ℝ) ^ 2 + 0 ^ 2 + 0 ^ 2) = 0
      norm_num
    rw [h0] at hlen
    linarith
  · show (⟨Real.sin (0 / 2) * 3, -3, -(Real.cos (0 / 2)) * 3⟩ : Vec3) =
      ⟨-(Real.sin (0 / 2)) * 3, -3, -(Real.cos (0 / 2)) * 3⟩
    norm_num
  · intro hc
    have hy := congrArg Vec3.y hc
    have : (-3 : ℝ) = 0 := hy
    norm_num at this

/-- Witness for C10: the first edge of the freshly initialized scene. -/
theorem C10_edge_endpoints_witness :
    ((⟨0, vzero, childPos1 (Real.pi / 4),
        createEdge vzero (childPos1 (Real.pi / 4))⟩ : EdgeObj) ∈
      (applyEvents [] (initWorld 800 600)).sceneEdges) ∧
    ((applyEvents [] (initWorld 800 600)).mainPos = vzero ∧
      (⟨0, vzero, childPos1 (Real.pi / 4),
          createEdge vzero (childPos1 (Real.pi / 4))⟩ : EdgeObj).start = vzero ∧
      vlen (vsub (⟨0, vzero, childPos1 (Real.pi / 4),
          createEdge vzero (childPos1 (Real.pi / 4))⟩ : EdgeObj).endp
        (⟨0, vzero, childPos1 (Real.pi / 4),
          createEdge vzero (childPos1 (Real.pi / 4))⟩ : EdgeObj).start) =
        3 * Real.sqrt 2 ∧
      (⟨0, vzero, childPos1 (Real.pi / 4),
          createEdge vzero (childPos1 (Real.pi / 4))⟩ : EdgeObj).endp ≠
        (⟨0, vzero, childPos1 (Real.pi / 4),
          createEdge vzero (childPos1 (Real.pi / 4))⟩ : EdgeObj).start ∧
      childPos1 0 = childPos2 0 ∧
      childPos1 0 ≠ vzero) := by
  have hmem : (⟨0, vzero, childPos1 (Real.pi / 4),
      createEdge vzero (childPos1 (Real.pi / 4))⟩ : EdgeObj) ∈
      (applyEvents [] (initWorld 800 600)).sceneEdges :=
    List.mem_cons_self _ _
  exact ⟨hmem, C10_edge_endpoints_never_coincident 800 600 [] _ hmem⟩

/-! ### Edge geometry: length, midpoint, orientation -/

lemma Vec3.ext3 {a b : Vec3} (hx : a.x = b.x) (hy : a.y = b.y)
    (hz : a.z = b.z) : a = b := by
  cases a; cases b; simp_all

lemma rotX_pi_div_two_ey : rotX (Real.pi / 2) ⟨0, 1, 0⟩ = ⟨0, 0, 1⟩ := by
  simp [rotX, Real.cos_pi_div_two, Real.sin_pi_div_two]

lemma applyFrame_ez (f : Vec3 × Vec3 × Vec3) :
    applyFrame f ⟨0, 0, 1⟩ = f.2.2 := by
  apply Vec3.ext3
  · show 0 * f.1.x + (0 * f.2.1.x + 1 * f.2.2.x) = f.2.2.x
    ring
  · show 0 * f.1.y + (0 * f.2.1.y + 1 * f.2.2.y) = f.2.2.y
    ring
  · show 0 * f.1.z + (0 * f.2.1.z + 1 * f.2.2.z) = f.2.2.z
    ring

lemma vnormalize_half (d : Vec3) : vnormalize (vsmul 0.5 d) = vnormalize d := by
  have hlen : vlen (vsmul 0.5 d) = 0.5 * vlen d := by
    show Real.sqrt ((0.5 * d.x) ^ 2 + (0.5 * d.y) ^ 2 + (0.5 * d.z) ^ 2) =
      0.5 * Real.sqrt (d.x ^ 2 + d.y ^ 2 + d.z ^ 2)
    rw [show (0.5 * d.x) ^ 2 + (0.5 * d.y) ^ 2 + (0.5 * d.z) ^ 2 =
        (0.5 : ℝ) ^ 2 * (d.x ^ 2 + d.y ^ 2 + d.z ^ 2) by ring,
      Real.sqrt_mul (by norm_num) _, Real.sqrt_sq (by norm_num)]
  apply Vec3.ext3
  · show (vlen (vsmul 0.5 d))⁻¹ * (0.5 * d.x) = (vlen d)⁻¹ * d.x
    rw [hlen, mul_inv]
    ring_nf
  · show (vlen (vsmul 0.5 d))⁻¹ * (0.5 * d.y) = (vlen d)⁻¹ * d.y
    rw [hlen, mul_inv]
    ring_nf
  · show (vlen (vsmul 0.5 d))⁻¹ * (0.5 * d.z) = (vlen d)⁻¹ * d.z
    rw [hlen, mul_inv]
    ring_nf

lemma vsub_mid (start endv : Vec3) :
    vsub endv (vadd start (vsmul 0.5 (vsub endv start))) =
      vsmul 0.5 (vsub endv start) := by
  apply Vec3.ext3
  · show endv.x - (start.x + 0.5 * (endv.x - start.x)) =
      0.5 * (endv.x - start.x)
    ring
  · show endv.y - (start.y + 0.5 * (endv.y - start.y)) =
      0.5 * (endv.y - start.y)
    ring
  · show endv.z - (start.z + 0.5 * (endv.z - start.z)) =
      0.5 * (endv.z - start.z)
    ring

/-- Claim C5: for distinct endpoints, `createEdge` builds a cylinder whose
length is the Euclidean norm of `end − start` (positive), whose center is
`start + 0.5·(end − start)` — the midpoint of the segment — and whose long
axis (the world image of the cylinder's local Y axis after orienting toward
`end` and rotating `π/2` about the local X axis) is the unit vector in the
direction from `start` to `end`. -/
theorem C5_edge_geometry (start endv : Vec3) (hne : start ≠ endv) :
    (createEdge start endv).length = vlen (vsub endv start) ∧
    0 < (createEdge start endv).length ∧
    (createEdge start endv).position = vadd start (vsmul 0.5 (vsub endv start)) ∧
    (createEdge start endv).position = vsmul 0.5 (vadd start endv) ∧
    (createEdge start endv).frameY = vnormalize (vsub endv start) := by
  refine ⟨rfl, ?_, rfl, ?_, ?_⟩
  · show 0 < vlen (vsub endv start)
    have hsum : 0 < (endv.x - start.x) ^ 2 + (endv.y - start.y) ^ 2 +
        (endv.z - start.z) ^ 2 := by
      by_contra hc
      push_neg at hc
      have hx : endv.x - start.x = 0 := by
        nlinarith [sq_nonneg (endv.x - start.x), sq_nonneg (endv.y - start.y),
          sq_nonneg (endv.z - start.z)]
      have hy : endv.y - start.y = 0 := by
        nlinarith [sq_nonneg (endv.x - start.x), sq_nonneg (endv.y - start.y),
          sq_nonneg (endv.z - start.z)]
      have hz : endv.z - start.z = 0 := by
        nlinarith [sq_nonneg (endv.x - start.x), sq_nonneg (endv.y - start.y),
          sq_nonneg (endv.z - start.z)]
      exact hne (Vec3.ext3 (by linarith) (by linarith) (by linarith))
    exact Real.sqrt_pos.mpr hsum
  · apply Vec3.ext3
    · show start.x + 0.5 * (endv.x - start.x) = 0.5 * (start.x + endv.x)
      ring
    · show start.y + 0.5 * (endv.y - start.y) = 0.5 * (start.y + endv.y)
      ring
    · show start.z + 0.5 * (endv.z - start.z) = 0.5 * (start.z + endv.z)
      ring
  · show applyFrame
      (lookAtFrame (vadd start (vsmul 0.5 (vsub endv start))) endv)
      (rotX (Real.pi / 2) ⟨0, 1, 0⟩) = vnormalize (vsub endv start)
    rw [rotX_pi_div_two_ey, applyFrame_ez]
    show vnormalize (vsub endv (vadd start (vsmul 0.5 (vsub endv start)))) =
      vnormalize (vsub endv start)
    rw [vsub_mid, vnormalize_half]

/-- Witness for C5 at the concrete pair `(0,0,0)`, `(0,0,1)`. -/
theorem C5_edge_geometry_witness :
    (vzero ≠ (⟨0, 0, 1⟩ : Vec3)) ∧
    ((createEdge vzero ⟨0, 0, 1⟩).length = vlen (vsub ⟨0, 0, 1⟩ vzero) ∧
      0 < (createEdge vzero ⟨0, 0, 1⟩).length ∧
      (createEdge vzero ⟨0, 0, 1⟩).position =
        vadd vzero (vsmul 0.5 (vsub ⟨0, 0, 1⟩ vzero)) ∧
      (createEdge vzero ⟨0, 0, 1⟩).position =
        vsmul 0.5 (vadd vzero ⟨0, 0, 1⟩) ∧
      (createEdge vzero ⟨0, 0, 1⟩).frameY =
        vnormalize (vsub ⟨0, 0, 1⟩ vzero)) := by
  have hne : vzero ≠ (⟨0, 0, 1⟩ : Vec3) := by
    intro hEq
    have hz := congrArg Vec3.z hEq
    have : (0 : ℝ) = 1 := hz
    norm_num at this
  exact ⟨hne, C5_edge_geometry vzero ⟨0, 0, 1⟩ hne⟩
